import Mathlib

/-!
Verification of the STIX extraction/merge engine in lib/stix.py.

The embedding models a STIX object as a record of the attributes the engine
reads (getattr with default, or dict get). Python getattr(obj, a, d) on a
missing attribute yields the default; this is an Option field read with getD.
All list-processing code (filters over the object list, dedup-by-id loops,
streaming reads, the merge driver) is translated loop-for-loop from
lib/stix.py.
-/

namespace Sticks

/-- A STIX object, restricted to the attributes the engine reads.
A field holds none when the attribute is absent on the Python object. -/
structure SObj where
  id : Option String
  type : Option String
  source_ref : Option String
  target_ref : Option String
  name : Option String
deriving DecidableEq

/-- getattr(obj, "id", "") as used by the dedup loops and filters. -/
def attrId (o : SObj) : String := o.id.getD ""

/-- getattr(obj, "type", "") -/
def attrType (o : SObj) : String := o.type.getD ""

/-- getattr(obj, "source_ref", "") -/
def attrSourceRef (o : SObj) : String := o.source_ref.getD ""

/-- getattr(obj, "target_ref", "") -/
def attrTargetRef (o : SObj) : String := o.target_ref.getD ""

/-! ## Object Loader (load_stix_data, lib/stix.py lines 58-84) -/

/-- Outcome of stix2.parse on one raw object followed by the
hasattr(parsed, "type") check in the loader loop: some parsed object that is
appended, or none when the object is skipped and counted (parse raised, or
the parsed value lacks a type attribute). The loader is parametric in the
parse function parseF, since stix2.parse is an external library. -/
def parseKept (parseF : SObj → Option SObj) (o : SObj) : Option SObj :=
  match parseF o with
  | some p => if p.type.isSome then some p else none
  | none => none

/-- The per-object loop of load_stix_data: traverse the objects array in
order, appending each successfully parsed object and counting each skip. -/
def loadObjects (parseF : SObj → Option SObj) : List SObj → List SObj × Nat
  | [] => ([], 0)
  | o :: rest =>
    let r := loadObjects parseF rest
    match parseF o with
    | some p => if p.type.isSome then (p :: r.1, r.2) else (r.1, r.2 + 1)
    | none => (r.1, r.2 + 1)

/-- Top-level JSON value of a bundle file after json.load succeeds, split by
how the line enumerate(raw_data.get("objects", [])) treats it:
dict: a JSON object whose objects key is absent (the .get default [] is
used) or holds an array of raw objects, each iterated element being handed
to the per-object parse call — a string or mapping value of the objects key
also iterates element-by-element through the same try/except and is
represented the same way, each iterated element standing for its parse
outcome under parseF, since no JSON-type distinction among iterables changes
the control flow;
dictNonIterableObjects: a JSON object whose objects key holds a
non-iterable JSON value (a number, a boolean or null), on which enumerate
raises an uncaught TypeError;
nonDict: any non-dict JSON value (array, string, number, ...), on which the
attribute access raw_data.get raises an uncaught AttributeError. -/
inductive TopJson where
  | dict (objects : Option (List SObj))
  | dictNonIterableObjects
  | nonDict
deriving DecidableEq

/-- The input file as load_stix_data sees it: missing (FileNotFoundError),
present but not valid JSON (json.JSONDecodeError), or valid JSON with the
given top-level value. -/
inductive LoadInput where
  | missing
  | badJson
  | top (t : TopJson)
deriving DecidableEq

/-- The ways load_stix_data terminates the process or crashes: the two
sys.exit(1) handlers, the uncaught AttributeError raised by
raw_data.get("objects", []) when the top-level JSON value is not a dict, and
the uncaught TypeError raised by enumerate when the objects value is a
non-iterable JSON value. -/
inductive LoadFatal where
  | fileNotFound
  | invalidJson
  | attributeError
  | typeError
deriving DecidableEq

/-- load_stix_data (lib/stix.py lines 58-84): fatal on missing file, invalid
JSON, a non-dict top level, or a non-iterable objects value; otherwise runs
the per-object parse loop on raw_data.get("objects", []). Inside that loop
every exception is caught per object, so no fatal exit exists past the
enumerate call. -/
def load_stix_data (parseF : SObj → Option SObj) :
    LoadInput → Except LoadFatal (List SObj × Nat)
  | .missing => .error .fileNotFound
  | .badJson => .error .invalidJson
  | .top .nonDict => .error .attributeError
  | .top .dictNonIterableObjects => .error .typeError
  | .top (.dict objs) => .ok (loadObjects parseF (objs.getD []))

/-- True when load_stix_data ends the process with a non-zero exit instead of
returning a list. -/
def isFatal (r : Except LoadFatal (List SObj × Nat)) : Bool :=
  match r with
  | .error _ => true
  | .ok _ => false

/-! ## Relationship Resolver (get_related_objects, lib/stix.py lines 87-107) -/

/-- get_related_objects: forward relationships (source_ref matches), their
targets, reverse relationships (target_ref matches), their sources; returns
(relationships ++ reverse_relationships, targets ++ reverse_sources). Each
filter traverses the input object list in order, exactly as the Python list
comprehensions do; the Python id sets are modelled as lists, membership being
all that is used. -/
def get_related_objects (objects : List SObj) (source_id : String) :
    List SObj × List SObj :=
  let relationships := objects.filter
    (fun o => decide (attrType o = "relationship" ∧ attrSourceRef o = source_id))
  let target_ids := relationships.map attrTargetRef
  let targets := objects.filter (fun o => decide (attrId o ∈ target_ids))
  let reverse_relationships := objects.filter
    (fun o => decide (attrType o = "relationship" ∧ attrTargetRef o = source_id))
  let reverse_source_ids := reverse_relationships.map attrSourceRef
  let reverse_sources := objects.filter
    (fun o => decide (attrId o ∈ reverse_source_ids))
  (relationships ++ reverse_relationships, targets ++ reverse_sources)

/-! ## Dedup-by-id loop (used by extract_all_apts and merge_all_stix_files) -/

/-- The loop for obj in ...: if obj_id and obj_id not in seen_ids, with the
seen_ids set modelled as the list of ids already kept. -/
def dedupByIdAux (seen : List String) : List SObj → List SObj
  | [] => []
  | o :: rest =>
    if attrId o ≠ "" ∧ attrId o ∉ seen then
      o :: dedupByIdAux (attrId o :: seen) rest
    else
      dedupByIdAux seen rest

/-- Dedup by id, keeping the first occurrence of each non-empty id and
dropping every object whose id is missing or empty. -/
def dedupById (objs : List SObj) : List SObj := dedupByIdAux [] objs

/-! ## Subgraph Extractor (extract_all_apts, lib/stix.py lines 109-149) -/

/-- The per-group body of extract_all_apts: group_id is
getattr(apt_group, "id", "unknown_id"); the assembled candidate list is
[apt_group] + relationships + targets; the written bundle holds its
dedup-by-id survivors in assembly order. -/
def extract_group_bundle (objects : List SObj) (apt_group : SObj) : List SObj :=
  let group_id := apt_group.id.getD "unknown_id"
  let rt := get_related_objects objects group_id
  dedupById (apt_group :: (rt.1 ++ rt.2))

/-- extract_all_apts over an already loaded object list: one bundle per
object of type intrusion-set, in corpus order. -/
def extract_all_apts (objects : List SObj) : List (List SObj) :=
  (objects.filter (fun o => decide (attrType o = "intrusion-set"))).map
    (extract_group_bundle objects)

/-! ## Streaming Ingestor (load_stix_objects_streaming, lines 158-170) -/

/-- One step of the ijson.items(f, "objects.item") iteration: either the next
raw object is yielded, or the iterator raises ijson.JSONError because the
document is malformed at this point. -/
inductive StreamEvent where
  | objectItem (o : SObj)
  | malformed
deriving DecidableEq

/-- load_stix_objects_streaming: collect yielded objects until the document
ends or the first JSONError, which is caught, so the objects read before the
failure point are returned and nothing is raised. -/
def load_stix_objects_streaming : List StreamEvent → List SObj
  | [] => []
  | .objectItem o :: rest => o :: load_stix_objects_streaming rest
  | .malformed :: _ => []

/-! ## Bundle Merger (merge_all_stix_files, lib/stix.py lines 178-211) -/

/-- A candidate bundle file in the raw-bundles directory: its glob name, its
raw byte content, and the event sequence ijson produces on that content. -/
structure StixFile where
  fname : String
  content : String
  events : List StreamEvent
deriving DecidableEq

/-- The objects a file yields to the merge (its streaming parse). -/
def fileObjects (f : StixFile) : List SObj := load_stix_objects_streaming f.events

/-- get_stix_files: every *.json file of the directory except the canonical
output file itself, in directory-enumeration order. The input list models
the glob("*.json") result. -/
def get_stix_files (files : List StixFile) (excludeName : String) : List StixFile :=
  files.filter (fun f => decide (f.fname ≠ excludeName))

/-- Result of a merge run: nothing written (no candidate files), a
byte-for-byte copy of the single candidate file (shutil.copy2), or a fresh
bundle holding the given object list. -/
inductive MergeResult where
  | noFiles
  | copied (f : StixFile)
  | merged (objects : List SObj)
deriving DecidableEq

/-- The dispatch of merge_all_stix_files on its candidate list: early return
when empty, byte copy when exactly one, otherwise stream every file in order,
concatenate, and dedup by id (first occurrence wins). -/
def merge_candidates : List StixFile → MergeResult
  | [] => .noFiles
  | [f] => .copied f
  | fs => .merged (dedupById (fs.flatMap fileObjects))

/-- merge_all_stix_files: candidates are all *.json files except the merged
output file, then merge_candidates. -/
def merge_all_stix_files (files : List StixFile) (mergedName : String) : MergeResult :=
  merge_candidates (get_stix_files files mergedName)

/-- The objects contained in the output bundle file a merge run writes: for
the copy path, the copied bytes are the candidate file content, so the output
file contains exactly the objects of that file; for the merge path, the
deduplicated survivors; none when nothing was written. -/
def mergeOutputObjects : MergeResult → Option (List SObj)
  | .noFiles => none
  | .copied f => some (fileObjects f)
  | .merged objects => some objects

/-- The raw byte content of the output file a merge run writes, where the
embedding determines it: the copy path writes exactly the candidate file
bytes. The serialization of a freshly merged bundle is not modelled. -/
def mergeOutputContent : MergeResult → Option String
  | .copied f => some f.content
  | _ => none

/-! ## Named pieces of the Resolver, for stating order properties -/

/-- The forward relationship list comprehension of get_related_objects. -/
def forwardRels (objects : List SObj) (source_id : String) : List SObj :=
  objects.filter
    (fun o => decide (attrType o = "relationship" ∧ attrSourceRef o = source_id))

/-- The reverse relationship list comprehension of get_related_objects. -/
def reverseRels (objects : List SObj) (source_id : String) : List SObj :=
  objects.filter
    (fun o => decide (attrType o = "relationship" ∧ attrTargetRef o = source_id))

/-- The targets list comprehension of get_related_objects: objects whose id
is a target_ref of some forward relationship, in corpus order. -/
def forwardTargets (objects : List SObj) (source_id : String) : List SObj :=
  objects.filter
    (fun o => decide (attrId o ∈ (forwardRels objects source_id).map attrTargetRef))

/-- The reverse_sources list comprehension of get_related_objects: objects
whose id is a source_ref of some reverse relationship, in corpus order. -/
def reverseSources (objects : List SObj) (source_id : String) : List SObj :=
  objects.filter
    (fun o => decide (attrId o ∈ (reverseRels objects source_id).map attrSourceRef))

/-! ## Concrete inputs used by witnesses and counterexamples -/

/-- A parse function that fails on every raw object. -/
def noParse : SObj → Option SObj := fun _ => none

/-- A parse function that accepts every raw object unchanged. -/
def idParse : SObj → Option SObj := fun o => some o

/-- A parse function that fails exactly on intrusion-set raw objects. -/
def onlyISFails : SObj → Option SObj :=
  fun o => if attrType o = "intrusion-set" then none else some o

/-- A raw intrusion-set property bag that strict parsing rejects. -/
def rawIS : SObj :=
  ⟨some "intrusion-set--0001", some "intrusion-set", none, none, some "APT-X"⟩

/-- Corpus for the resolver order counterexample: B precedes A in the corpus
while the first forward relationship references A. -/
def exA : SObj := ⟨some "A", some "attack-pattern", none, none, none⟩

def exB : SObj := ⟨some "B", some "attack-pattern", none, none, none⟩

def exR1 : SObj := ⟨some "R1", some "relationship", some "S", some "A", none⟩

def exR2 : SObj := ⟨some "R2", some "relationship", some "S", some "B", none⟩

/-- Two distinct objects sharing one id, for duplicate-id inputs. -/
def dupA : SObj := ⟨some "attack-pattern--9", some "attack-pattern", none, none, some "a"⟩

def dupB : SObj := ⟨some "attack-pattern--9", some "attack-pattern", none, none, some "b"⟩

/-- A candidate bundle file containing two objects with the same id. -/
def dupFile : StixFile :=
  ⟨"apt_dup.json",
   "\x7b \"type\": \"bundle\", \"id\": \"bundle--d\", \"objects\": [ \x7b \"type\": \"attack-pattern\", \"id\": \"attack-pattern--9\", \"name\": \"a\" \x7d, \x7b \"type\": \"attack-pattern\", \"id\": \"attack-pattern--9\", \"name\": \"b\" \x7d ] \x7d",
   [StreamEvent.objectItem dupA, StreamEvent.objectItem dupB]⟩

/-- A small two-group corpus: two intrusion sets joined by one relationship. -/
def wIS1 : SObj := ⟨some "intrusion-set--1", some "intrusion-set", none, none, some "G1"⟩

def wIS2 : SObj := ⟨some "intrusion-set--2", some "intrusion-set", none, none, some "G2"⟩

def wR12 : SObj :=
  ⟨some "relationship--12", some "relationship", some "intrusion-set--1",
   some "intrusion-set--2", none⟩

/-- A self-loop relationship on the first group. -/
def wLoop : SObj :=
  ⟨some "relationship--loop", some "relationship", some "intrusion-set--1",
   some "intrusion-set--1", none⟩

/-- Two attack patterns that parse cleanly. -/
def okAP1 : SObj := ⟨some "attack-pattern--1", some "attack-pattern", none, none, some "T1"⟩

def okAP2 : SObj := ⟨some "attack-pattern--2", some "attack-pattern", none, none, some "T2"⟩

/-- A raw object without a type attribute: the loader skips it even when
parse succeeds, via the hasattr check. -/
def noTypeObj : SObj := ⟨some "x--1", none, none, none, none⟩

/-- An object with no id attribute. -/
def noIdObj : SObj := ⟨none, some "attack-pattern", none, none, some "anon"⟩

/-- Candidate files for merge witnesses. -/
def fileA : StixFile :=
  ⟨"apt_a.json", "BYTES-A",
   [StreamEvent.objectItem okAP1, StreamEvent.objectItem dupA]⟩

def fileB : StixFile :=
  ⟨"apt_b.json", "BYTES-B",
   [StreamEvent.objectItem dupB, StreamEvent.objectItem okAP2]⟩

/-- The previous canonical output file sitting in the same directory. -/
def mergedOld : StixFile := ⟨"merged_stix.json", "OLD", []⟩

/-- A file whose JSON structure breaks after one object. -/
def badFile : StixFile :=
  ⟨"apt_bad.json", "BYTES-BAD",
   [StreamEvent.objectItem okAP1, StreamEvent.malformed,
    StreamEvent.objectItem noTypeObj]⟩

/-- The well-formed file holding exactly the readable prefix of badFile. -/
def goodFile : StixFile :=
  ⟨"apt_good.json", "BYTES-GOOD", [StreamEvent.objectItem okAP1]⟩

/-- A well-formed companion file for merge-continuation witnesses. -/
def tailFile : StixFile :=
  ⟨"apt_tail.json", "BYTES-TAIL", [StreamEvent.objectItem okAP2]⟩

/-! ## Helper lemmas about the dedup loop -/

lemma mem_of_mem_dedupByIdAux {o : SObj} :
    ∀ (l : List SObj) (seen : List String), o ∈ dedupByIdAux seen l → o ∈ l := by
  intro l
  induction l with
  | nil => intro seen h; simp [dedupByIdAux] at h
  | cons a t ih =>
    intro seen h
    simp only [dedupByIdAux] at h
    split at h
    · rcases List.mem_cons.mp h with h1 | h1
      · exact h1 ▸ List.mem_cons_self a t
      · exact List.mem_cons_of_mem a (ih _ h1)
    · exact List.mem_cons_of_mem a (ih _ h)

lemma prop_of_mem_dedupByIdAux {o : SObj} :
    ∀ (l : List SObj) (seen : List String), o ∈ dedupByIdAux seen l →
      attrId o ≠ "" ∧ attrId o ∉ seen := by
  intro l
  induction l with
  | nil => intro seen h; simp [dedupByIdAux] at h
  | cons a t ih =>
    intro seen h
    simp only [dedupByIdAux] at h
    split at h
    · next hc =>
      rcases List.mem_cons.mp h with h1 | h1
      · exact h1 ▸ hc
      · have := ih _ h1
        exact ⟨this.1, fun hm => this.2 (List.mem_cons_of_mem _ hm)⟩
    · exact ih _ h

lemma nodup_map_attrId_dedupByIdAux :
    ∀ (l : List SObj) (seen : List String),
      ((dedupByIdAux seen l).map attrId).Nodup := by
  intro l
  induction l with
  | nil => intro seen; simp [dedupByIdAux]
  | cons a t ih =>
    intro seen
    simp only [dedupByIdAux]
    split
    · rw [List.map_cons, List.nodup_cons]
      refine ⟨?_, ih _⟩
      intro hmem
      rcases List.mem_map.mp hmem with ⟨o, ho, hid⟩
      exact (prop_of_mem_dedupByIdAux t _ ho).2 (hid ▸ List.mem_cons_self _ _)
    · exact ih _

lemma nodup_dedupById (l : List SObj) : (dedupById l).Nodup :=
  List.Nodup.of_map attrId (nodup_map_attrId_dedupByIdAux l [])

lemma mem_dedupByIdAux_of_unique {o : SObj} :
    ∀ (l : List SObj) (seen : List String), o ∈ l → attrId o ≠ "" →
      attrId o ∉ seen → (∀ o2 ∈ l, attrId o2 = attrId o → o2 = o) →
      o ∈ dedupByIdAux seen l := by
  intro l
  induction l with
  | nil => intro seen h; simp at h
  | cons a t ih =>
    intro seen hmem hid hseen huni
    simp only [dedupByIdAux]
    by_cases heq : attrId a = attrId o
    · have ha : a = o := huni a (List.mem_cons_self a t) heq
      subst ha
      rw [if_pos ⟨hid, hseen⟩]
      exact List.mem_cons_self a _
    · have hmt : o ∈ t := by
        rcases List.mem_cons.mp hmem with h1 | h1
        · exact absurd (h1 ▸ rfl) heq
        · exact h1
      have huni2 : ∀ o2 ∈ t, attrId o2 = attrId o → o2 = o := by
        intro o2 h2 h3
        exact huni o2 (List.mem_cons_of_mem a h2) h3
      split
      · refine List.mem_cons_of_mem a (ih _ hmt hid ?_ huni2)
        intro hx
        rcases List.mem_cons.mp hx with h1 | h1
        · exact heq h1.symm
        · exact hseen h1
      · exact ih _ hmt hid hseen huni2

lemma mem_dedupById_of_unique {o : SObj} (l : List SObj) (hmem : o ∈ l)
    (hid : attrId o ≠ "") (huni : ∀ o2 ∈ l, attrId o2 = attrId o → o2 = o) :
    o ∈ dedupById l :=
  mem_dedupByIdAux_of_unique l [] hmem hid (by simp) huni

lemma count_dedupById_of_unique {o : SObj} (l : List SObj) (hmem : o ∈ l)
    (hid : attrId o ≠ "") (huni : ∀ o2 ∈ l, attrId o2 = attrId o → o2 = o) :
    (dedupById l).count o = 1 :=
  List.count_eq_one_of_mem (nodup_dedupById l)
    (mem_dedupById_of_unique l hmem hid huni)

lemma filter_dedupByIdAux_of_mem_seen {X : String}
    (l : List SObj) (seen : List String) (hX : X ∈ seen) :
    (dedupByIdAux seen l).filter (fun o => attrId o == X) = [] := by
  rw [List.filter_eq_nil_iff]
  intro o ho
  have := (prop_of_mem_dedupByIdAux l seen ho).2
  simp only [beq_iff_eq]
  intro h
  exact this (h ▸ hX)

lemma filter_dedupByIdAux_eq_find {X : String} {w : SObj} :
    ∀ (l : List SObj) (seen : List String), X ≠ "" → X ∉ seen →
      l.find? (fun o => attrId o == X) = some w →
      (dedupByIdAux seen l).filter (fun o => attrId o == X) = [w] := by
  intro l
  induction l with
  | nil => intro seen _ _ hf; simp [List.find?] at hf
  | cons a t ih =>
    intro seen hX hseen hf
    by_cases ha : attrId a = X
    · have hw : w = a := by
        have := List.find?_cons_of_pos (p := fun o => attrId o == X) (a := a) t
          (by simp [ha])
        rw [this] at hf
        exact (Option.some_inj.mp hf).symm
      subst hw
      simp only [dedupByIdAux, ha]
      rw [if_pos ⟨hX, hseen⟩]
      rw [List.filter_cons_of_pos (by simp [ha])]
      rw [filter_dedupByIdAux_of_mem_seen t _ (List.mem_cons_self X seen)]
    · have hf2 : t.find? (fun o => attrId o == X) = some w := by
        have := List.find?_cons_of_neg (p := fun o => attrId o == X) (a := a) t
          (by simp [ha])
        rw [this] at hf
        exact hf
      simp only [dedupByIdAux]
      split
      · rw [List.filter_cons_of_neg (by simp [ha])]
        refine ih _ hX ?_ hf2
        intro hx
        rcases List.mem_cons.mp hx with h1 | h1
        · exact ha h1.symm
        · exact hseen h1
      · exact ih _ hX hseen hf2

lemma dedupByIdAux_skip_empty {o : SObj} (ho : attrId o = "") (l2 : List SObj) :
    ∀ (l1 : List SObj) (seen : List String),
      dedupByIdAux seen (l1 ++ o :: l2) = dedupByIdAux seen (l1 ++ l2) := by
  intro l1
  induction l1 with
  | nil =>
    intro seen
    simp only [List.nil_append, dedupByIdAux]
    rw [if_neg (by simp [ho])]
  | cons a t ih =>
    intro seen
    simp only [List.cons_append, dedupByIdAux]
    split
    · exact congrArg _ (ih _)
    · exact ih _

/-! ## Helper lemmas about the loader -/

lemma loadObjects_eq (parseF : SObj → Option SObj) (l : List SObj) :
    loadObjects parseF l =
      (l.filterMap (parseKept parseF),
        (l.filter (fun o => (parseKept parseF o).isNone)).length) := by
  induction l with
  | nil => rfl
  | cons o rest ih =>
    simp only [loadObjects, ih]
    cases hp : parseF o with
    | none =>
      simp [List.filterMap_cons, List.filter_cons, parseKept, hp]
    | some p =>
      by_cases ht : p.type.isSome = true
      · simp [List.filterMap_cons, List.filter_cons, parseKept, hp, ht]
      · simp [List.filterMap_cons, List.filter_cons, parseKept, hp, ht]

lemma length_filterMap_of_isSome (f : SObj → Option SObj) (l : List SObj)
    (h : ∀ x ∈ l, (f x).isSome = true) : (l.filterMap f).length = l.length := by
  induction l with
  | nil => rfl
  | cons a t ih =>
    rcases Option.isSome_iff_exists.mp (h a (List.mem_cons_self a t)) with ⟨b, hb⟩
    rw [List.filterMap_cons, hb]
    simp only [List.length_cons]
    rw [ih (fun x hx => h x (List.mem_cons_of_mem a hx))]

/-! ## Helper lemmas about the streaming reader and the merge dispatch -/

lemma streaming_wellformed (pre : List SObj) :
    load_stix_objects_streaming (pre.map StreamEvent.objectItem) = pre := by
  induction pre with
  | nil => rfl
  | cons a t ih => simp [load_stix_objects_streaming, ih]

lemma streaming_stops_at_malformed (pre : List SObj) (rest : List StreamEvent) :
    load_stix_objects_streaming
      (pre.map StreamEvent.objectItem ++ StreamEvent.malformed :: rest) = pre := by
  induction pre with
  | nil => rfl
  | cons a t ih => simp [load_stix_objects_streaming, ih]

lemma merge_candidates_eq_merged (l : List StixFile) (h : 2 ≤ l.length) :
    merge_candidates l = .merged (dedupById (l.flatMap fileObjects)) := by
  match l with
  | [] => simp at h
  | [f] => simp at h
  | a :: b :: t => rfl

/-! ## Helper lemmas about the Resolver -/

lemma related_fst_eq (objects : List SObj) (source_id : String) :
    (get_related_objects objects source_id).1 =
      forwardRels objects source_id ++ reverseRels objects source_id := rfl

lemma related_snd_eq (objects : List SObj) (source_id : String) :
    (get_related_objects objects source_id).2 =
      forwardTargets objects source_id ++ reverseSources objects source_id := rfl

lemma mem_forwardRels_iff (objects : List SObj) (source_id : String) (o : SObj) :
    o ∈ forwardRels objects source_id ↔
      o ∈ objects ∧ attrType o = "relationship" ∧ attrSourceRef o = source_id := by
  simp [forwardRels, List.mem_filter]

lemma mem_reverseRels_iff (objects : List SObj) (source_id : String) (o : SObj) :
    o ∈ reverseRels objects source_id ↔
      o ∈ objects ∧ attrType o = "relationship" ∧ attrTargetRef o = source_id := by
  simp [reverseRels, List.mem_filter]

lemma mem_forwardTargets_iff (objects : List SObj) (source_id : String) (o : SObj) :
    o ∈ forwardTargets objects source_id ↔
      o ∈ objects ∧ attrId o ∈ (forwardRels objects source_id).map attrTargetRef := by
  simp [forwardTargets, List.mem_filter]

lemma mem_reverseSources_iff (objects : List SObj) (source_id : String) (o : SObj) :
    o ∈ reverseSources objects source_id ↔
      o ∈ objects ∧ attrId o ∈ (reverseRels objects source_id).map attrSourceRef := by
  simp [reverseSources, List.mem_filter]

lemma mem_objects_of_mem_related_fst {objects : List SObj} {source_id : String}
    {o : SObj} (h : o ∈ (get_related_objects objects source_id).1) : o ∈ objects := by
  rw [related_fst_eq] at h
  rcases List.mem_append.mp h with h1 | h1
  · exact ((mem_forwardRels_iff objects source_id o).mp h1).1
  · exact ((mem_reverseRels_iff objects source_id o).mp h1).1

lemma mem_objects_of_mem_related_snd {objects : List SObj} {source_id : String}
    {o : SObj} (h : o ∈ (get_related_objects objects source_id).2) : o ∈ objects := by
  rw [related_snd_eq] at h
  rcases List.mem_append.mp h with h1 | h1
  · exact ((mem_forwardTargets_iff objects source_id o).mp h1).1
  · exact ((mem_reverseSources_iff objects source_id o).mp h1).1

/-! ## Helper lemmas about the Extractor -/

lemma groupId_eq (o : SObj) (h : attrId o ≠ "") :
    o.id.getD "unknown_id" = attrId o := by
  unfold attrId at h ⊢
  cases ho : o.id with
  | none => rw [ho] at h; simp at h
  | some s => rfl

lemma extract_group_bundle_eq (objects : List SObj) (group : SObj)
    (hg : attrId group ≠ "") :
    extract_group_bundle objects group =
      dedupById (group :: ((get_related_objects objects (attrId group)).1 ++
        (get_related_objects objects (attrId group)).2)) := by
  unfold extract_group_bundle
  rw [groupId_eq group hg]

lemma mem_extract_assembly {objects : List SObj} {sid : String} {o2 group : SObj}
    (h : o2 ∈ group :: ((get_related_objects objects sid).1 ++
      (get_related_objects objects sid).2)) : o2 = group ∨ o2 ∈ objects := by
  rcases List.mem_cons.mp h with h1 | h1
  · exact Or.inl h1
  · rcases List.mem_append.mp h1 with h2 | h2
    · exact Or.inr (mem_objects_of_mem_related_fst h2)
    · exact Or.inr (mem_objects_of_mem_related_snd h2)

lemma mem_extract_group_bundle (objects : List SObj) (group o : SObj)
    (hg : attrId group ≠ "")
    (ho : o = group ∨ o ∈ (get_related_objects objects (attrId group)).1 ∨
      o ∈ (get_related_objects objects (attrId group)).2)
    (hido : attrId o ≠ "")
    (huni : ∀ o2, (o2 = group ∨ o2 ∈ objects) → attrId o2 = attrId o → o2 = o) :
    o ∈ extract_group_bundle objects group := by
  rw [extract_group_bundle_eq objects group hg]
  refine mem_dedupById_of_unique _ ?_ hido ?_
  · rcases ho with h1 | h1 | h1
    · exact h1 ▸ List.mem_cons_self _ _
    · exact List.mem_cons_of_mem _ (List.mem_append.mpr (Or.inl h1))
    · exact List.mem_cons_of_mem _ (List.mem_append.mpr (Or.inr h1))
  · intro o2 h2 h3
    exact huni o2 (mem_extract_assembly h2) h3

lemma count_extract_group_bundle (objects : List SObj) (group o : SObj)
    (hg : attrId group ≠ "")
    (ho : o = group ∨ o ∈ (get_related_objects objects (attrId group)).1 ∨
      o ∈ (get_related_objects objects (attrId group)).2)
    (hido : attrId o ≠ "")
    (huni : ∀ o2, (o2 = group ∨ o2 ∈ objects) → attrId o2 = attrId o → o2 = o) :
    (extract_group_bundle objects group).count o = 1 := by
  have hmem := mem_extract_group_bundle objects group o hg ho hido huni
  have hnd : (extract_group_bundle objects group).Nodup := by
    rw [extract_group_bundle_eq objects group hg]
    exact nodup_dedupById _
  exact List.count_eq_one_of_mem hnd hmem

lemma extract_bundle_mem_extract_all (objects : List SObj) (group : SObj)
    (hmem : group ∈ objects) (ht : attrType group = "intrusion-set") :
    extract_group_bundle objects group ∈ extract_all_apts objects := by
  unfold extract_all_apts
  refine List.mem_map.mpr ⟨group, ?_, rfl⟩
  exact List.mem_filter.mpr ⟨hmem, by simp [ht]⟩

lemma attrId_ne_of_mem_dedupById {o : SObj} {l : List SObj}
    (h : o ∈ dedupById l) : attrId o ≠ "" :=
  (prop_of_mem_dedupByIdAux l [] h).1

/-! ## Claim theorems -/

/-- Claim C1, counterexample: a raw intrusion-set property bag that fails
strict typed parsing is NOT kept by load_stix_data; the loader returns an
empty object list and one skip, contradicting the claimed raw fallback. -/
theorem claim1_counterexample :
    load_stix_data onlyISFails (.top (.dict (some [rawIS]))) = .ok ([], 1) ∧
    attrType rawIS = "intrusion-set" := ⟨rfl, rfl⟩

/-- Claim C1, amended: in load_stix_data every raw object that fails strict
typed parsing is skipped and counted, regardless of its raw type field
(including attack-pattern, campaign and intrusion-set); no raw property-bag
fallback exists there. The failing object contributes nothing to the output
list and adds exactly one to the skip count. -/
theorem claim1_loader_skips_all_failed (parseF : SObj → Option SObj)
    (l1 l2 : List SObj) (o : SObj) (hbad : parseKept parseF o = none) :
    load_stix_data parseF (.top (.dict (some (l1 ++ o :: l2)))) =
      .ok ((l1 ++ l2).filterMap (parseKept parseF),
        ((l1 ++ l2).filter (fun x => (parseKept parseF x).isNone)).length + 1) := by
  simp only [load_stix_data, Option.getD]
  rw [loadObjects_eq]
  have h1 : (l1 ++ o :: l2).filterMap (parseKept parseF) =
      (l1 ++ l2).filterMap (parseKept parseF) := by
    rw [List.filterMap_append, List.filterMap_append, List.filterMap_cons, hbad]
  have h2 : ((l1 ++ o :: l2).filter (fun x => (parseKept parseF x).isNone)).length =
      ((l1 ++ l2).filter (fun x => (parseKept parseF x).isNone)).length + 1 := by
    rw [List.filter_append, List.filter_append,
      List.filter_cons_of_pos (by simp [hbad])]
    simp only [List.length_append, List.length_cons]
    omega
  rw [h1, h2]

/-- Witness for the amended C1 theorem at a concrete corpus. -/
theorem claim1_witness :
    load_stix_data onlyISFails (.top (.dict (some ([okAP1] ++ rawIS :: [okAP2])))) =
      .ok (([okAP1] ++ [okAP2]).filterMap (parseKept onlyISFails),
        (([okAP1] ++ [okAP2]).filter
          (fun x => (parseKept onlyISFails x).isNone)).length + 1) :=
  claim1_loader_skips_all_failed onlyISFails [okAP1] [okAP2] rawIS (by decide)

/-- Claim C2, counterexample: with corpus order [exB, exA, exR1, exR2] the
first forward relationship references exA, yet the related-object list puts
exB first, so related objects do not follow the order of the relationships
that reference them. -/
theorem claim2_counterexample :
    get_related_objects [exB, exA, exR1, exR2] "S" = ([exR1, exR2], [exB, exA]) ∧
    attrTargetRef exR1 = attrId exA ∧ attrTargetRef exR2 = attrId exB ∧
    exA ≠ exB := ⟨rfl, rfl, rfl, by decide⟩

/-- Claim C2, amended: get_related_objects returns the relationship list as
forward relationships followed by reverse relationships, and the
related-object list as resolved forward targets followed by resolved reverse
sources, where each segment lists its objects in the order they occur in the
input object list (each segment is a subsequence of the input), not in the
order of the relationships that reference them. -/
theorem claim2_segment_order (objects : List SObj) (source_id : String) :
    (get_related_objects objects source_id).1 =
      forwardRels objects source_id ++ reverseRels objects source_id ∧
    (get_related_objects objects source_id).2 =
      forwardTargets objects source_id ++ reverseSources objects source_id ∧
    (forwardTargets objects source_id).Sublist objects ∧
    (reverseSources objects source_id).Sublist objects ∧
    (∀ o, o ∈ forwardTargets objects source_id ↔ o ∈ objects ∧
      attrId o ∈ (forwardRels objects source_id).map attrTargetRef) ∧
    (∀ o, o ∈ reverseSources objects source_id ↔ o ∈ objects ∧
      attrId o ∈ (reverseRels objects source_id).map attrSourceRef) := by
  refine ⟨related_fst_eq objects source_id, related_snd_eq objects source_id,
    List.filter_sublist objects, List.filter_sublist objects,
    mem_forwardTargets_iff objects source_id,
    mem_reverseSources_iff objects source_id⟩

/-- Claim C3, counterexample: with exactly one candidate file containing two
distinct objects that share one id, the copy path writes that file
byte-for-byte, so the written bundle contains two objects with the same id. -/
theorem claim3_counterexample :
    merge_all_stix_files [dupFile] "merged_stix.json" = .copied dupFile ∧
    mergeOutputObjects (merge_all_stix_files [dupFile] "merged_stix.json") =
      some [dupA, dupB] ∧
    attrId dupA = attrId dupB ∧ dupA ≠ dupB ∧
    ¬ (([dupA, dupB].map attrId).Nodup) := ⟨rfl, rfl, rfl, by decide, by decide⟩

/-- Claim C3, amended: every per-group extraction bundle and every multi-file
merged bundle has pairwise distinct object ids, and each of its objects
appears in it exactly once (so an object reached via two relationships is
written once); only the single-candidate copy path reproduces the candidate
bytes unexamined and therefore inherits any duplicate ids of that file. -/
theorem claim3_unique_ids (objects : List SObj) (group : SObj)
    (fs : List StixFile) (h2 : 2 ≤ fs.length) :
    ((extract_group_bundle objects group).map attrId).Nodup ∧
    (∀ o ∈ extract_group_bundle objects group,
      (extract_group_bundle objects group).count o = 1) ∧
    merge_candidates fs = .merged (dedupById (fs.flatMap fileObjects)) ∧
    ((dedupById (fs.flatMap fileObjects)).map attrId).Nodup := by
  have hext : ((extract_group_bundle objects group).map attrId).Nodup := by
    unfold extract_group_bundle dedupById
    exact nodup_map_attrId_dedupByIdAux _ _
  refine ⟨hext, ?_, merge_candidates_eq_merged fs h2,
    nodup_map_attrId_dedupByIdAux _ _⟩
  intro o hmem
  exact List.count_eq_one_of_mem (List.Nodup.of_map attrId hext) hmem

/-- Witness for the amended C3 theorem at a concrete corpus and file pair. -/
theorem claim3_witness :
    ((extract_group_bundle [wIS1, wIS2, wR12] wIS1).map attrId).Nodup ∧
    (extract_group_bundle [wIS1, wIS2, wR12] wIS1).count wIS1 = 1 ∧
    merge_candidates [fileA, fileB] =
      .merged (dedupById ([fileA, fileB].flatMap fileObjects)) ∧
    ((dedupById ([fileA, fileB].flatMap fileObjects)).map attrId).Nodup :=
  ⟨(claim3_unique_ids [wIS1, wIS2, wR12] wIS1 [fileA, fileB] (by decide)).1,
   (claim3_unique_ids [wIS1, wIS2, wR12] wIS1 [fileA, fileB] (by decide)).2.1
     wIS1 (by decide),
   (claim3_unique_ids [wIS1, wIS2, wR12] wIS1 [fileA, fileB] (by decide)).2.2.1,
   (claim3_unique_ids [wIS1, wIS2, wR12] wIS1 [fileA, fileB] (by decide)).2.2.2⟩

/-- Claim C4: when exactly one candidate file exists, merge_all_stix_files
copies it: the run result is the copy of that file, whose written bytes are
exactly the candidate file content, with no parse/re-serialize round trip. -/
theorem claim4_single_file_copy (files : List StixFile) (mergedName : String)
    (f : StixFile) (h : get_stix_files files mergedName = [f]) :
    merge_all_stix_files files mergedName = .copied f ∧
    mergeOutputContent (merge_all_stix_files files mergedName) = some f.content := by
  unfold merge_all_stix_files
  rw [h]
  exact ⟨rfl, rfl⟩

/-- Witness for C4: one candidate plus the previous output file. -/
theorem claim4_witness :
    merge_all_stix_files [fileA, mergedOld] "merged_stix.json" = .copied fileA ∧
    mergeOutputContent (merge_all_stix_files [fileA, mergedOld] "merged_stix.json") =
      some fileA.content :=
  claim4_single_file_copy [fileA, mergedOld] "merged_stix.json" fileA (by decide)

/-- Claim C5: with two or more candidate files, the merged bundle contains,
for any id X present in the concatenated stream (files in enumeration order,
document order within each file), exactly one object with id X, and that
object is the first occurrence in the stream, kept whole. -/
theorem claim5_first_occurrence_wins (files : List StixFile)
    (mergedName X : String) (w : SObj)
    (h2 : 2 ≤ (get_stix_files files mergedName).length)
    (hX : X ≠ "")
    (hw : ((get_stix_files files mergedName).flatMap fileObjects).find?
      (fun o => attrId o == X) = some w) :
    merge_all_stix_files files mergedName =
      .merged (dedupById ((get_stix_files files mergedName).flatMap fileObjects)) ∧
    (dedupById ((get_stix_files files mergedName).flatMap fileObjects)).filter
      (fun o => attrId o == X) = [w] := by
  constructor
  · unfold merge_all_stix_files
    exact merge_candidates_eq_merged _ h2
  · unfold dedupById
    exact filter_dedupByIdAux_eq_find _ [] hX (by simp) hw

/-- Witness for C5: id attack-pattern--9 occurs in both candidate files with
different field values; the survivor is the fileA version. -/
theorem claim5_witness :
    merge_all_stix_files [fileA, fileB, mergedOld] "merged_stix.json" =
      .merged (dedupById
        ((get_stix_files [fileA, fileB, mergedOld] "merged_stix.json").flatMap
          fileObjects)) ∧
    (dedupById
        ((get_stix_files [fileA, fileB, mergedOld] "merged_stix.json").flatMap
          fileObjects)).filter
      (fun o => attrId o == "attack-pattern--9") = [dupA] :=
  claim5_first_occurrence_wins [fileA, fileB, mergedOld] "merged_stix.json"
    "attack-pattern--9" dupA (by decide) (by decide) (by decide)

/-- Claim C6: for intrusion-sets A and B joined by a relationship with
source_ref = A.id and target_ref = B.id, the extracted bundle for A contains
B and the relationship (forward direction), the extracted bundle for B
contains A and the same relationship (reverse direction), and both bundles
are among those extract_all_apts produces. Hypotheses encode the STIX data
model: ids are non-empty and unique within the corpus. -/
theorem claim6_symmetry (objects : List SObj) (A B rel : SObj)
    (hA : A ∈ objects) (hB : B ∈ objects) (hrel : rel ∈ objects)
    (htA : attrType A = "intrusion-set") (htB : attrType B = "intrusion-set")
    (htr : attrType rel = "relationship")
    (hsrc : attrSourceRef rel = attrId A) (htgt : attrTargetRef rel = attrId B)
    (hidA : attrId A ≠ "") (hidB : attrId B ≠ "") (hidr : attrId rel ≠ "")
    (huniq : ∀ o1 ∈ objects, ∀ o2 ∈ objects,
      attrId o1 = attrId o2 → attrId o1 ≠ "" → o1 = o2) :
    B ∈ extract_group_bundle objects A ∧ rel ∈ extract_group_bundle objects A ∧
    A ∈ extract_group_bundle objects B ∧ rel ∈ extract_group_bundle objects B ∧
    extract_group_bundle objects A ∈ extract_all_apts objects ∧
    extract_group_bundle objects B ∈ extract_all_apts objects := by
  have huniFor : ∀ g ∈ objects, ∀ o ∈ objects, attrId o ≠ "" →
      ∀ o2, (o2 = g ∨ o2 ∈ objects) → attrId o2 = attrId o → o2 = o := by
    intro g hg o ho hido o2 h2 h3
    rcases h2 with h2 | h2
    · exact huniq o2 (h2 ▸ hg) o ho h3 (by rw [h3]; exact hido)
    · exact huniq o2 h2 o ho h3 (by rw [h3]; exact hido)
  have hrelFwdA : rel ∈ forwardRels objects (attrId A) :=
    (mem_forwardRels_iff objects (attrId A) rel).mpr ⟨hrel, htr, hsrc⟩
  have hrelRevB : rel ∈ reverseRels objects (attrId B) :=
    (mem_reverseRels_iff objects (attrId B) rel).mpr ⟨hrel, htr, htgt⟩
  have hBt : B ∈ forwardTargets objects (attrId A) :=
    (mem_forwardTargets_iff objects (attrId A) B).mpr
      ⟨hB, List.mem_map.mpr ⟨rel, hrelFwdA, htgt⟩⟩
  have hAs : A ∈ reverseSources objects (attrId B) :=
    (mem_reverseSources_iff objects (attrId B) A).mpr
      ⟨hA, List.mem_map.mpr ⟨rel, hrelRevB, hsrc⟩⟩
  have hBsnd : B ∈ (get_related_objects objects (attrId A)).2 := by
    rw [related_snd_eq]
    exact List.mem_append.mpr (Or.inl hBt)
  have hAsnd : A ∈ (get_related_objects objects (attrId B)).2 := by
    rw [related_snd_eq]
    exact List.mem_append.mpr (Or.inr hAs)
  have hrelFstA : rel ∈ (get_related_objects objects (attrId A)).1 := by
    rw [related_fst_eq]
    exact List.mem_append.mpr (Or.inl hrelFwdA)
  have hrelFstB : rel ∈ (get_related_objects objects (attrId B)).1 := by
    rw [related_fst_eq]
    exact List.mem_append.mpr (Or.inr hrelRevB)
  refine ⟨?_, ?_, ?_, ?_, ?_, ?_⟩
  · exact mem_extract_group_bundle objects A B hidA (Or.inr (Or.inr hBsnd)) hidB
      (huniFor A hA B hB hidB)
  · exact mem_extract_group_bundle objects A rel hidA (Or.inr (Or.inl hrelFstA))
      hidr (huniFor A hA rel hrel hidr)
  · exact mem_extract_group_bundle objects B A hidB (Or.inr (Or.inr hAsnd)) hidA
      (huniFor B hB A hA hidA)
  · exact mem_extract_group_bundle objects B rel hidB (Or.inr (Or.inl hrelFstB))
      hidr (huniFor B hB rel hrel hidr)
  · exact extract_bundle_mem_extract_all objects A hA htA
  · exact extract_bundle_mem_extract_all objects B hB htB

/-- Witness for C6 on the two-group corpus joined by one relationship. -/
theorem claim6_witness :
    wIS2 ∈ extract_group_bundle [wIS1, wIS2, wR12] wIS1 ∧
    wR12 ∈ extract_group_bundle [wIS1, wIS2, wR12] wIS1 ∧
    wIS1 ∈ extract_group_bundle [wIS1, wIS2, wR12] wIS2 ∧
    wR12 ∈ extract_group_bundle [wIS1, wIS2, wR12] wIS2 ∧
    extract_group_bundle [wIS1, wIS2, wR12] wIS1 ∈
      extract_all_apts [wIS1, wIS2, wR12] ∧
    extract_group_bundle [wIS1, wIS2, wR12] wIS2 ∈
      extract_all_apts [wIS1, wIS2, wR12] :=
  claim6_symmetry [wIS1, wIS2, wR12] wIS1 wIS2 wR12 (by decide) (by decide)
    (by decide) (by decide) (by decide) (by decide) (by decide) (by decide)
    (by decide) (by decide) (by decide) (by decide)

/-- Claim C7, counterexample: two files that are present and hold valid JSON
also make load_stix_data fail fatally — one whose top-level value is not a
JSON object (for example an array), via the uncaught AttributeError raised
by raw_data.get, and one that is a JSON object whose objects key holds a
non-iterable value such as the number 5, via the uncaught TypeError raised
by enumerate — so the claimed missing-or-invalid-JSON boundary is
incomplete. -/
theorem claim7_counterexample :
    isFatal (load_stix_data idParse (.top .nonDict)) = true ∧
    isFatal (load_stix_data idParse (.top .dictNonIterableObjects)) = true ∧
    LoadInput.top .nonDict ≠ .missing ∧
    LoadInput.top .nonDict ≠ .badJson ∧
    LoadInput.top .dictNonIterableObjects ≠ .missing ∧
    LoadInput.top .dictNonIterableObjects ≠ .badJson :=
  ⟨rfl, rfl, by decide, by decide, by decide, by decide⟩

/-- Claim C7, amended: load_stix_data fails fatally (non-zero exit, no
partial result) exactly when the file is missing, is not valid JSON, its
top-level JSON value is not a JSON object, or its objects entry holds a
non-iterable JSON value (a number, a boolean or null); for a valid bundle
file whose objects array holds exactly one failing object, the loader
returns every other object in order and reports exactly one skip. -/
theorem claim7_fatal_boundary (parseF : SObj → Option SObj) (inp : LoadInput)
    (l1 l2 : List SObj) (o : SObj)
    (hok : ∀ x ∈ l1 ++ l2, (parseKept parseF x).isSome = true)
    (hbad : parseKept parseF o = none) :
    (isFatal (load_stix_data parseF inp) = true ↔
      (inp = .missing ∨ inp = .badJson ∨ inp = .top .nonDict ∨
        inp = .top .dictNonIterableObjects)) ∧
    load_stix_data parseF (.top (.dict (some (l1 ++ o :: l2)))) =
      .ok ((l1 ++ l2).filterMap (parseKept parseF), 1) ∧
    ((l1 ++ l2).filterMap (parseKept parseF)).length = (l1 ++ l2).length := by
  refine ⟨?_, ?_, length_filterMap_of_isSome (parseKept parseF) (l1 ++ l2) hok⟩
  · cases inp with
    | missing => simp [load_stix_data, isFatal]
    | badJson => simp [load_stix_data, isFatal]
    | top t =>
      cases t with
      | nonDict => simp [load_stix_data, isFatal]
      | dictNonIterableObjects => simp [load_stix_data, isFatal]
      | dict d => simp [load_stix_data, isFatal]
  · simp only [load_stix_data, Option.getD]
    rw [loadObjects_eq]
    have h1 : (l1 ++ o :: l2).filterMap (parseKept parseF) =
        (l1 ++ l2).filterMap (parseKept parseF) := by
      rw [List.filterMap_append, List.filterMap_append, List.filterMap_cons, hbad]
    have hnone : ∀ x ∈ l1 ++ l2, (parseKept parseF x).isNone = false := by
      intro x hx
      rcases Option.isSome_iff_exists.mp (hok x hx) with ⟨b, hb⟩
      simp [hb]
    have h2 : (l1 ++ o :: l2).filter (fun x => (parseKept parseF x).isNone) = [o] := by
      rw [List.filter_append, List.filter_cons_of_pos (by simp [hbad])]
      have e1 : l1.filter (fun x => (parseKept parseF x).isNone) = [] := by
        rw [List.filter_eq_nil_iff]
        intro a ha
        simp [hnone a (List.mem_append.mpr (Or.inl ha))]
      have e2 : l2.filter (fun x => (parseKept parseF x).isNone) = [] := by
        rw [List.filter_eq_nil_iff]
        intro a ha
        simp [hnone a (List.mem_append.mpr (Or.inr ha))]
      rw [e1, e2]
      rfl
    rw [h1, h2]
    rfl

/-- Witness for the amended C7 theorem: invalid JSON is fatal; one object
without a usable type among two good ones yields those two and one skip. -/
theorem claim7_witness :
    (isFatal (load_stix_data idParse LoadInput.badJson) = true ↔
      (LoadInput.badJson = .missing ∨ LoadInput.badJson = .badJson ∨
        LoadInput.badJson = .top .nonDict ∨
        LoadInput.badJson = .top .dictNonIterableObjects)) ∧
    load_stix_data idParse (.top (.dict (some ([okAP1] ++ noTypeObj :: [okAP2])))) =
      .ok (([okAP1] ++ [okAP2]).filterMap (parseKept idParse), 1) ∧
    (([okAP1] ++ [okAP2]).filterMap (parseKept idParse)).length =
      ([okAP1] ++ [okAP2]).length :=
  claim7_fatal_boundary idParse LoadInput.badJson [okAP1] [okAP2] noTypeObj
    (by decide) (by decide)

/-- Claim C8: on a file whose JSON structure breaks partway, the streaming
reader returns exactly the objects read before the failure point (it is a
total function: the JSONError is caught, nothing propagates), and the
enclosing merge treats the file as if it contained just that prefix, so the
remaining files are still merged. -/
theorem claim8_stream_best_effort (pre : List SObj) (rest : List StreamEvent)
    (fs1 fs2 : List StixFile) (bad good : StixFile)
    (hbad : bad.events = pre.map StreamEvent.objectItem ++
      StreamEvent.malformed :: rest)
    (hgood : good.events = pre.map StreamEvent.objectItem)
    (hlen : 2 ≤ (fs1 ++ bad :: fs2).length) :
    fileObjects bad = pre ∧
    merge_candidates (fs1 ++ bad :: fs2) =
      .merged (dedupById ((fs1 ++ good :: fs2).flatMap fileObjects)) := by
  have h1 : fileObjects bad = pre := by
    rw [fileObjects, hbad]
    exact streaming_stops_at_malformed pre rest
  have h2 : fileObjects good = pre := by
    rw [fileObjects, hgood]
    exact streaming_wellformed pre
  refine ⟨h1, ?_⟩
  rw [merge_candidates_eq_merged _ hlen]
  have h3 : (fs1 ++ bad :: fs2).flatMap fileObjects =
      (fs1 ++ good :: fs2).flatMap fileObjects := by
    rw [List.flatMap_append, List.flatMap_append, List.flatMap_cons,
      List.flatMap_cons, h1, h2]
  rw [h3]

/-- Witness for C8: badFile breaks after one object; merging it between two
good files equals merging with its readable prefix substituted. -/
theorem claim8_witness :
    fileObjects badFile = [okAP1] ∧
    merge_candidates ([fileB] ++ badFile :: [tailFile]) =
      .merged (dedupById (([fileB] ++ goodFile :: [tailFile]).flatMap fileObjects)) :=
  claim8_stream_best_effort [okAP1] [StreamEvent.objectItem noTypeObj] [fileB]
    [tailFile] badFile goodFile (by decide) (by decide) (by decide)

/-- Claim C9: an object whose id attribute is missing or empty is silently
dropped: it never appears in a per-group extraction bundle (not even the
group object itself), never appears in a multi-file merged bundle, and its
removal from the dedup input changes nothing, so it is not recorded as a
seen id and cannot count as a duplicate or suppress any later object. -/
theorem claim9_empty_id_dropped (objects : List SObj) (group o : SObj)
    (h : attrId o = "") (l1 l2 : List SObj) :
    o ∉ extract_group_bundle objects group ∧
    (attrId group = "" → group ∉ extract_group_bundle objects group) ∧
    (∀ fs objs2, merge_candidates fs = .merged objs2 → o ∉ objs2) ∧
    dedupById (l1 ++ o :: l2) = dedupById (l1 ++ l2) := by
  refine ⟨?_, ?_, ?_, dedupByIdAux_skip_empty h l2 l1 []⟩
  · intro hmem
    exact attrId_ne_of_mem_dedupById hmem h
  · intro hg hmem
    exact attrId_ne_of_mem_dedupById hmem hg
  · intro fs objs2 hm hmem
    match fs, hm with
    | a :: b :: t, hm =>
      have : objs2 = dedupById ((a :: b :: t).flatMap fileObjects) :=
        (MergeResult.merged.injEq _ _).mp hm.symm
      rw [this] at hmem
      exact attrId_ne_of_mem_dedupById hmem h

/-- Witness for C9 at a concrete id-less object, corpus and merge input. -/
theorem claim9_witness :
    noIdObj ∉ extract_group_bundle [wIS1, noIdObj] wIS1 ∧
    noIdObj ∉ dedupById ([fileA, fileB].flatMap fileObjects) ∧
    dedupById ([okAP1] ++ noIdObj :: [okAP2]) = dedupById ([okAP1] ++ [okAP2]) :=
  ⟨(claim9_empty_id_dropped [wIS1, noIdObj] wIS1 noIdObj (by decide) [okAP1]
      [okAP2]).1,
   (claim9_empty_id_dropped [wIS1, noIdObj] wIS1 noIdObj (by decide) [okAP1]
      [okAP2]).2.2.1 [fileA, fileB] (dedupById ([fileA, fileB].flatMap fileObjects))
      rfl,
   (claim9_empty_id_dropped [wIS1, noIdObj] wIS1 noIdObj (by decide) [okAP1]
      [okAP2]).2.2.2⟩

/-- Claim C10: a self-loop relationship (source_ref and target_ref both equal
to the group id) is matched by both the forward and the reverse comprehension,
so it occurs twice in the relationship list returned by get_related_objects,
while the per-group dedup leaves exactly one copy of it in the written
bundle. Hypotheses encode the STIX data model: the relationship occurs once
in the corpus, ids are non-empty, its id is unique and distinct from the
group id. -/
theorem claim10_self_loop (objects : List SObj) (group rel : SObj)
    (hg : attrId group ≠ "") (hcount : objects.count rel = 1)
    (htr : attrType rel = "relationship")
    (hsrc : attrSourceRef rel = attrId group)
    (htgt : attrTargetRef rel = attrId group)
    (hidr : attrId rel ≠ "") (hgr : attrId group ≠ attrId rel)
    (huniq : ∀ o ∈ objects, attrId o = attrId rel → o = rel) :
    (get_related_objects objects (attrId group)).1.count rel = 2 ∧
    (extract_group_bundle objects group).count rel = 1 := by
  have hmem : rel ∈ objects := List.count_pos_iff.mp (by omega)
  have hrelFwd : rel ∈ forwardRels objects (attrId group) :=
    (mem_forwardRels_iff objects (attrId group) rel).mpr ⟨hmem, htr, hsrc⟩
  constructor
  · rw [related_fst_eq, List.count_append]
    have c1 : (forwardRels objects (attrId group)).count rel = 1 := by
      unfold forwardRels
      rw [List.count_filter (by simp [htr, hsrc])]
      exact hcount
    have c2 : (reverseRels objects (attrId group)).count rel = 1 := by
      unfold reverseRels
      rw [List.count_filter (by simp [htr, htgt])]
      exact hcount
    omega
  · have hfst : rel ∈ (get_related_objects objects (attrId group)).1 := by
      rw [related_fst_eq]
      exact List.mem_append.mpr (Or.inl hrelFwd)
    refine count_extract_group_bundle objects group rel hg
      (Or.inr (Or.inl hfst)) hidr ?_
    intro o2 h2 h3
    rcases h2 with h2 | h2
    · exact absurd (h2 ▸ h3) hgr
    · exact huniq o2 h2 h3

/-- Witness for C10 on a corpus of one group and one self-loop. -/
theorem claim10_witness :
    (get_related_objects [wIS1, wLoop] (attrId wIS1)).1.count wLoop = 2 ∧
    (extract_group_bundle [wIS1, wLoop] wIS1).count wLoop = 1 :=
  claim10_self_loop [wIS1, wLoop] wIS1 wLoop (by decide) (by decide) (by decide)
    (by decide) (by decide) (by decide) (by decide) (by decide)

end Sticks
